import Mathlib

/-!
Verification of the jenkins_ping build-history and causal-attribution core
(package jenkins, file api_real.go) against its natural-language
specification.  The Go code is embedded shallowly: HTTP traffic is an
oracle function, the status cache is an explicit association list, and
machine integers are Lean Int.
-/

set_option maxRecDepth 4000

namespace JenkinsPing

/-- Modelled from the spec: the Contributor record of the data-model file that
is absent from the source tree; only its FullName field is used. -/
structure Culprit where
  fullName : String
deriving DecidableEq

/-- Modelled from the spec: one build-trigger cause, a record with optional
fields exactly as decoded from the wire (zero values when absent). -/
structure Cause where
  userID : String
  upstreamBuild : Int
  upstreamProject : String
  shortDescription : String
deriving DecidableEq

/-- Modelled from the spec: an Action holds an ordered sequence of Causes. -/
structure Action where
  causes : List Cause
deriving DecidableEq

/-- Modelled from the spec: one change-set item carries its author. -/
structure ChangeSetItem where
  author : Culprit
deriving DecidableEq

/-- Modelled from the spec: a ChangeSet holds an ordered sequence of items. -/
structure ChangeSet where
  items : List ChangeSetItem
deriving DecidableEq

/-- Modelled from the spec: the build-status record; exactly the fields the
walker and resolver in api_real.go read. -/
structure JobStatus where
  result : String
  building : Bool
  timestamp : Int
  estimatedDuration : Int
  culprits : List Culprit
  actions : List Action
  changeSets : List ChangeSet
deriving DecidableEq

/-- The zero value of JobStatus, what a failed JSON decode leaves behind. -/
def zeroJobStatus : JobStatus :=
  { result := "", building := false, timestamp := 0, estimatedDuration := 0,
    culprits := [], actions := [], changeSets := [] }

/-- One possible answer of the remote Jenkins server to a status request:
the connection itself fails, the page is a 404, the payload decodes to a
record, or the payload is unparseable. -/
inductive FetchResult where
  | transportError
  | notFound
  | ok (status : JobStatus)
  | undecodable
deriving DecidableEq

/-- The network oracle: what the server answers for each (job, id) pair. -/
def Remote : Type := String → String → FetchResult

/-- State of a ServerAPI value: the cachedStatuses map (newest entry first)
plus a counter of network round-trips actually issued. -/
structure ApiState where
  cache : List (String × JobStatus)
  fetches : Nat
deriving DecidableEq

/-- The fresh state: empty cache, no fetches yet. -/
def freshState : ApiState := { cache := [], fetches := 0 }

/-- Alias string for the most recent build (constant lastBuild). -/
def lastBuild : String := "lastBuild"

/-- Alias string for the most recent completed build. -/
def lastCompletedBuild : String := "lastCompletedBuild"

/-- The cache key, Sprintf of job dash id from GetStatusForJob. -/
def cacheKey (job id : String) : String := job ++ "-" ++ id

/-- Character membership in a character list. -/
def hasCharList (c : Char) : List Char → Bool
  | [] => false
  | x :: rest => if x = c then true else hasCharList c rest

/-- Models strings.Contains of a one-character substring. -/
def containsChar (s : String) (c : Char) : Bool := hasCharList c s.data

/-- Does the first list lead the second one. -/
def leadsWith : List Char → List Char → Bool
  | [], _ => true
  | _ :: _, [] => false
  | p :: ps, c :: cs => if p = c then leadsWith ps cs else false

/-- Models strings.HasPrefix: does s start with pre. -/
def strStartsWith (s pre : String) : Bool := leadsWith pre.data s.data

/-- The numeric value of a decimal digit character, none otherwise. -/
def digitVal (c : Char) : Option Nat :=
  if 48 ≤ c.toNat ∧ c.toNat ≤ 57 then some (c.toNat - 48) else none

/-- Parse a nonempty all-digit list into a number, none on any other input. -/
def parseDigits : List Char → Nat → Option Nat
  | [], acc => some acc
  | c :: rest, acc =>
    match digitVal c with
    | none => none
    | some d => parseDigits rest (acc * 10 + d)

/-- Models strconv.Atoi: an optional sign followed by at least one digit;
anything else is a parse error (none). -/
def atoiChars : List Char → Option Int
  | [] => none
  | c :: rest =>
    if c = '-' then
      if rest = [] then none else (parseDigits rest 0).map (fun n => -(n : Int))
    else if c = '+' then
      if rest = [] then none else (parseDigits rest 0).map (fun n => (n : Int))
    else (parseDigits (c :: rest) 0).map (fun n => (n : Int))

/-- Models strconv.Atoi on a string. -/
def atoi (s : String) : Option Int := atoiChars s.data

/-- Decimal digits of a number, accumulated most significant first; the
fuel (first argument) only needs to be at least the digit count, and the
number itself is always enough. -/
def natToCharsAux : Nat → Nat → List Char → List Char
  | 0, _, acc => acc
  | _ + 1, 0, acc => acc
  | fuel + 1, n + 1, acc =>
    natToCharsAux fuel ((n + 1) / 10) (Char.ofNat (48 + (n + 1) % 10) :: acc)

/-- Decimal notation of a natural number. -/
def natToChars (n : Nat) : List Char :=
  if n = 0 then [('0')] else natToCharsAux n n []

/-- Models strconv.Itoa. -/
def itoa (n : Int) : String :=
  match n with
  | Int.ofNat m => String.mk (natToChars m)
  | Int.negSucc m => String.mk ('-' :: natToChars (m + 1))

/-- Association-list lookup modelling the Go map read. -/
def lookupCache : List (String × JobStatus) → String → Option JobStatus
  | [], _ => none
  | (k, v) :: rest, key => if k = key then some v else lookupCache rest key

/-- The error values GetStatusForJob can return: errStatusPageNotFound
(also used for the folder-name rejection) and a transport failure from
the HTTP layer. -/
inductive GetErr where
  | statusPageNotFound
  | transport
deriving DecidableEq

/-- Embeds ServerAPI.GetStatusForJob (api_real.go lines 51 to 83): reject
folder job names, consult the cache for non-alias ids, otherwise hit the
network; a 404 maps to errStatusPageNotFound, a decode failure is swallowed
(the record stays zero-valued and nil error is returned), and successful
non-alias fetches are stored in the cache. -/
def GetStatusForJob (remote : Remote) (st : ApiState) (job id : String) :
    Except GetErr JobStatus × ApiState :=
  if containsChar job '/' then (.error .statusPageNotFound, st)
  else
    match (if id = lastBuild ∨ id = lastCompletedBuild then none
           else lookupCache st.cache (cacheKey job id)) with
    | some cachedValue => (.ok cachedValue, st)
    | none =>
      let st1 : ApiState := { st with fetches := st.fetches + 1 }
      match remote job id with
      | .transportError => (.error .transport, st1)
      | .notFound => (.error .statusPageNotFound, st1)
      | .ok s =>
        if id = lastBuild ∨ id = lastCompletedBuild then (.ok s, st1)
        else (.ok s, { st1 with cache := (cacheKey job id, s) :: st1.cache })
      | .undecodable => (.ok zeroJobStatus, st1)

/-- Insertion into the accumulator set.  The Go code uses map[string]bool;
we model it as an insertion-ordered duplicate-free list (Modelled from the
spec: mapKeysToSlice, absent from the source tree, returns the keys, and the
spec says insertion order is irrelevant for the returned set). -/
def insertSet (set : List String) (x : String) : List String :=
  if x ∈ set then set else set ++ [x]

/-- Embeds addCulpritIdsToSet (api_real.go lines 156 to 161). -/
def addCulpritIdsToSet (set : List String) (culprits : List Culprit) : List String :=
  culprits.foldl (fun s c => insertSet s c.fullName) set

/-- Embeds addChangeSetsToSet (api_real.go lines 163 to 169). -/
def addChangeSetsToSet (set : List String) (changeSets : List ChangeSet) : List String :=
  changeSets.foldl
    (fun s cs => cs.items.foldl (fun s2 item => insertSet s2 item.author.fullName) s) set

mutual

/-- Embeds addActionIdsToSet (api_real.go lines 171 to 188).  The Go
function recurses through addCauses with no depth guard; the fuel
parameter bounds that recursion depth so the embedding is total, and a
none result means the bound was exceeded. -/
def addActionIdsToSet (remote : Remote) (fuel : Nat) (st : ApiState)
    (set : List String) (status : JobStatus) : Option (List String × ApiState) :=
  match fuel with
  | 0 => none
  | f + 1 => forEachAction remote f st set status status.actions
termination_by (fuel, 0, 0)

/-- The outer range loop of addActionIdsToSet over status.Actions. -/
def forEachAction (remote : Remote) (fuel : Nat) (st : ApiState)
    (set : List String) (status : JobStatus) (actions : List Action) :
    Option (List String × ApiState) :=
  match actions with
  | [] => some (set, st)
  | a :: rest =>
    match forEachCause remote fuel st set status a.causes with
    | none => none
    | some (set1, st1) => forEachAction remote fuel st1 set1 status rest
termination_by (fuel, 3, actions.length)

/-- The inner range loop of addActionIdsToSet over one action's Causes,
with the first-match-wins classification of each cause. -/
def forEachCause (remote : Remote) (fuel : Nat) (st : ApiState)
    (set : List String) (status : JobStatus) (causes : List Cause) :
    Option (List String × ApiState) :=
  match causes with
  | [] => some (set, st)
  | c :: rest =>
    if c.userID ≠ "" then
      forEachCause remote fuel st (insertSet set c.userID) status rest
    else if c.upstreamBuild ≠ 0 ∧ c.upstreamProject ≠ "" then
      match addCauses remote fuel st set c.upstreamProject c.upstreamBuild with
      | none => none
      | some (set1, st1) => forEachCause remote fuel st1 set1 status rest
    else if c.shortDescription = "Started by an SCM change" then
      forEachCause remote fuel st (addCulpritIdsToSet set status.culprits) status rest
    else if strStartsWith (c.shortDescription) ("commit notification") then
      forEachCause remote fuel st (addChangeSetsToSet set status.changeSets) status rest
    else
      forEachCause remote fuel st set status rest
termination_by (fuel, 2, causes.length)

/-- Embeds addCauses (api_real.go lines 190 to 197): fetch the upstream
build and classify its actions with the same rules.  The caller in Go logs
and ignores a returned error, so the error case keeps set unchanged while
the state still records the attempted fetch. -/
def addCauses (remote : Remote) (fuel : Nat) (st : ApiState) (set : List String)
    (upstreamProject : String) (upstreamBuild : Int) : Option (List String × ApiState) :=
  match GetStatusForJob remote st upstreamProject (itoa upstreamBuild) with
  | (.error _, st1) => some (set, st1)
  | (.ok status, st1) => addActionIdsToSet remote fuel st1 set status
termination_by (fuel, 1, 0)

end

/-- Embeds the for loop of CausesOfFailures (api_real.go lines 115 to 146).
visits is the remaining visitsToServerAllowed budget; visitCount counts the
GetStatusForJob calls made by this loop.  Returns none only when the fuel
for upstream-cause recursion runs out. -/
def causesOfFailuresLoop (remote : Remote) (fuel : Nat) :
    Nat → ApiState → List String → String → String → Nat →
    Option (List String × ApiState × Nat)
  | visits, st, set, name, id, visitCount =>
    if id = lastCompletedBuild then some (set, st, visitCount)
    else
      match atoi id with
      | none => some (set, st, visitCount)
      | some currentID =>
        match visits with
        | 0 => some (set, st, visitCount)
        | v + 1 =>
          if v = 0 then some (set, st, visitCount)
          else
            match GetStatusForJob remote st name id with
            | (.error .statusPageNotFound, st1) =>
              causesOfFailuresLoop remote fuel v st1 set name
                (itoa (currentID - 1)) (visitCount + 1)
            | (.error _, st1) => some (set, st1, visitCount + 1)
            | (.ok statusIterator, st1) =>
              if statusIterator.result = "SUCCESS" ∨ statusIterator.result = "FIXED" then
                some (set, st1, visitCount + 1)
              else
                match addActionIdsToSet remote fuel st1 set statusIterator with
                | none => none
                | some (set1, st2) =>
                  let set2 := addCulpritIdsToSet set1 statusIterator.culprits
                  let set3 := addChangeSetsToSet set2 statusIterator.changeSets
                  causesOfFailuresLoop remote fuel v st2 set3 name
                    (itoa (currentID - 1)) (visitCount + 1)

/-- Embeds CausesOfFailures (api_real.go lines 112 to 148): budget constant
20, empty accumulator; also returns the final state and the number of
status-resolver visits the loop performed. -/
def CausesOfFailures (remote : Remote) (fuel : Nat) (st : ApiState)
    (name id : String) : Option (List String × ApiState × Nat) :=
  causesOfFailuresLoop remote fuel 20 st [] name id 0

/-- The fixed byte budget of the log fetch window (constant sizeOfSuffix). -/
def sizeOfSuffix : Nat := 2048

/-- Embeds the start offset computed in GetLastLogLines (api_real.go line
286): plain integer subtraction, with no clamping at zero. -/
def logFetchOffset (size : Int) : Int := size - (sizeOfSuffix : Int)

/-- Skip characters up to and including the next greater-than sign,
returning the remainder; none when no greater-than sign follows. -/
def skipToGt : List Char → Option (List Char)
  | [] => none
  | '>' :: rest => some rest
  | _ :: rest => skipToGt rest

/-- Worker of sanitize, structurally recursive on a fuel that starts at the
buffer length; every step strips at least one character, so the fuel never
runs out on the original input. -/
def sanitizeAux : Nat → List Char → List Char
  | 0, _ => []
  | _, [] => []
  | fuel + 1, '\r' :: rest => sanitizeAux fuel rest
  | fuel + 1, '<' :: '>' :: rest => '<' :: sanitizeAux fuel ('>' :: rest)
  | fuel + 1, '<' :: c :: rest =>
    match skipToGt (c :: rest) with
    | some after => sanitizeAux fuel after
    | none => '<' :: sanitizeAux fuel (c :: rest)
  | fuel + 1, c :: rest => c :: sanitizeAux fuel rest

/-- Embeds the regular expression matcherForHTMLAndWeirdCharacters
(api_real.go line 23) applied with ReplaceAllString to the empty string:
each leftmost match, either a markup tag (a less-than sign, one or more
characters other than greater-than, then a greater-than sign) or a
carriage return, is deleted. -/
def sanitize (l : List Char) : List Char := sanitizeAux l.length l

/-- Go slice data from lo (inclusive) to hi (exclusive). -/
def sliceChars (data : List Char) (lo hi : Nat) : List Char :=
  (data.drop lo).take (hi - lo)

/-- Embeds the backward scanning loop of fetchLinesForLastLogLines
(api_real.go lines 263 to 272).  The first Nat argument is the current
loop index plus one (zero meaning the index went below zero); endIter and
nl are the loop variables of the source; acc collects lines newest first. -/
def scanBack (data : List Char) (lineCount : Nat) :
    Nat → Nat → Nat → List String → List String
  | 0, _, _, acc => acc
  | i + 1, endIter, nl, acc =>
    if nl ≥ lineCount then acc
    else
      if data.get? i = some '\n' ∧ i ≠ endIter then
        scanBack data lineCount i i (nl + 1)
          (acc ++ [String.mk (sanitize (sliceChars data (i + 1) endIter))])
      else
        scanBack data lineCount i endIter nl acc

/-- Embeds fetchLinesForLastLogLines (api_real.go lines 250 to 277) applied
to an already fetched buffer: backward scan collecting sanitized lines
newest first, then the in-place reversal loop, yielding oldest first. -/
def fetchLinesForLastLogLines (data : List Char) (lineCount : Nat) : List String :=
  (scanBack data lineCount data.length (data.length - 1) 0 []).reverse

/-- The console-log side of the server: the size probe answer (none models
any probe failure: transport error, non-200 status or missing size header)
and the raw text returned for a content fetch at a given start offset
(none models a non-200 content response). -/
structure LogServer where
  probe : Option Int
  content : Int → Option (List Char)

/-- Embeds GetLastLogLines (api_real.go lines 280 to 287): probe the size,
then fetch the suffix starting at logFetchOffset of the size and parse it. -/
def GetLastLogLines (srv : LogServer) (lineCount : Nat) : Option (List String) :=
  match srv.probe with
  | none => none
  | some size =>
    match srv.content (logFetchOffset size) with
    | none => none
    | some data => some (fetchLinesForLastLogLines data lineCount)

/-- Modelled from the spec: one test case of the report, absent from the
source tree; the filter reads only Status. -/
structure TestCase where
  className : String
  name : String
  status : String
  errorStackTrace : String
deriving DecidableEq

/-- Modelled from the spec: one suite of the test report. -/
structure Suite where
  cases : List TestCase
deriving DecidableEq

/-- Modelled from the spec: the decoded test report, suites of cases. -/
structure TestCaseResult where
  suites : List Suite
deriving DecidableEq

/-- Server answers for a test-report request. -/
inductive TestFetch where
  | transportError
  | notFound
  | undecodable
  | ok (received : TestCaseResult)

/-- Errors of GetFailedTestListFor: transport failure, the literal
no-test-report-found error for a 404, and a propagated decode failure. -/
inductive TestErr where
  | transport
  | noTestReportFound
  | decodeFailure
deriving DecidableEq

/-- The inner range loop of GetFailedTestListFor over one suite's cases
(api_real.go lines 219 to 223). -/
def collectCases (results : List TestCase) : List TestCase → List TestCase
  | [] => results
  | aCase :: rest =>
    if aCase.status ≠ "PASSED" ∧ aCase.status ≠ "SKIPPED" ∧ aCase.status ≠ "FIXED" then
      collectCases (results ++ [aCase]) rest
    else
      collectCases results rest

/-- The outer range loop of GetFailedTestListFor over the suites
(api_real.go lines 218 to 224). -/
def collectSuites (results : List TestCase) : List Suite → List TestCase
  | [] => results
  | suite :: rest => collectSuites (collectCases results suite.cases) rest

/-- Embeds GetFailedTestListFor (api_real.go lines 200 to 226). -/
def GetFailedTestListFor (remoteTests : String → String → TestFetch)
    (job id : String) : Except TestErr (List TestCase) :=
  match remoteTests job id with
  | .transportError => .error .transport
  | .notFound => .error .noTestReportFound
  | .undecodable => .error .decodeFailure
  | .ok received => .ok (collectSuites [] received.suites)

/-- Definition following the spec's words for claim C9: keep exactly the
cases whose Status is not PASSED, not SKIPPED and not FIXED, in the order
they appear in the received report (suites in order, cases in order). -/
def specFailedFilter (received : TestCaseResult) : List TestCase :=
  ((received.suites.map Suite.cases).flatten).filter
    (fun c => !(c.status == "PASSED" || c.status == "SKIPPED" || c.status == "FIXED"))

/-- A server on which every status page is a 404. -/
def nfRemote : Remote := fun _ _ => FetchResult.notFound

/-- A server whose every status payload fails to decode. -/
def badPayloadRemote : Remote := fun _ _ => FetchResult.undecodable

/-- A FAILURE build record blaming exactly one contributor. -/
def failureWith (dev : String) : JobStatus :=
  { zeroJobStatus with result := "FAILURE", culprits := [⟨dev⟩] }

/-- A SUCCESS build record. -/
def successStatus : JobStatus := { zeroJobStatus with result := "SUCCESS" }

/-- A FAILURE record of job jobA whose only action's only cause is the
upstream trigger (jobA, build 1), closing a cycle on itself. -/
def loopStatus : JobStatus :=
  { zeroJobStatus with result := "FAILURE", actions := [⟨[⟨"", 1, "jobA", ""⟩]⟩] }

/-- A server whose job jobA build 1 is loopStatus: its upstream-trigger
graph has a cycle of length one. -/
def cyclicRemote : Remote := fun job id =>
  if job = "jobA" ∧ id = "1" then FetchResult.ok loopStatus else FetchResult.notFound

/-- The history of claim C8: build 10 purged (404), build 9 a FAILURE with
culprit C, build 8 a SUCCESS. -/
def gapRemote : Remote := fun job id =>
  if job = "jobG" ∧ id = "10" then FetchResult.notFound
  else if job = "jobG" ∧ id = "9" then FetchResult.ok (failureWith ("C"))
  else if job = "jobG" ∧ id = "8" then FetchResult.ok successStatus
  else FetchResult.notFound

/-- The history of claim C2: job jobF has FAILURE builds 76 to 100, each
with a distinct culprit, and nothing else. -/
def manyFailuresRemote : Remote := fun job id =>
  if job = "jobF" then
    match atoi id with
    | some n => if 76 ≤ n ∧ n ≤ 100 then FetchResult.ok (failureWith (("dev") ++ id))
                else FetchResult.notFound
    | none => FetchResult.notFound
  else FetchResult.notFound

/-- A server that always answers with one fixed decodable record. -/
def constRemote (s : JobStatus) : Remote := fun _ _ => FetchResult.ok s

/-- A console log of total size 100: the suffix served for a fetch at the
unclamped negative offset differs from the one served at offset zero, so
the two candidate fetch offsets of claim C6 are observably distinct. -/
def smallLogServer : LogServer :=
  { probe := some 100
  , content := fun o =>
      if o = 0 then some (("x\natzero\n").toList)
      else if o = -1948 then some (("x\nnegative\n").toList)
      else none }

/-- A two-suite test report exercising every filtered status. -/
def sampleReport : TestCaseResult :=
  ⟨[ ⟨[⟨("T1"), ("a"), ("FAILED"), ("boom")⟩, ⟨("T1"), ("b"), ("PASSED"), ("")⟩]⟩
   , ⟨[⟨("T2"), ("c"), ("REGRESSION"), ("trace")⟩, ⟨("T2"), ("d"), ("SKIPPED"), ("")⟩,
      ⟨("T2"), ("e"), ("FIXED"), ("")⟩]⟩ ]⟩

/-- A test-report server always returning sampleReport. -/
def sampleTestsRemote : String → String → TestFetch := fun _ _ => TestFetch.ok sampleReport

/-! Theorems.  Helper lemmas come first, then one theorem per claim with
its witness or counterexample. -/

theorem atoi_lastBuild : atoi lastBuild = none := by decide

theorem atoi_lastCompletedBuild : atoi lastCompletedBuild = none := by decide

theorem atoi_ne_aliases {id : String} {n : Int} (h : atoi id = some n) :
    ¬(id = lastBuild ∨ id = lastCompletedBuild) := by
  rintro (he | he) <;> rw [he] at h
  · rw [atoi_lastBuild] at h; exact Option.noConfusion h
  · rw [atoi_lastCompletedBuild] at h; exact Option.noConfusion h

theorem natToCharsAux_zero (fuel : Nat) (acc : List Char) :
    natToCharsAux fuel 0 acc = acc := by
  cases fuel <;> rfl

theorem natToCharsAux_acc (fuel : Nat) : ∀ (n : Nat) (acc : List Char),
    natToCharsAux fuel n acc = natToCharsAux fuel n [] ++ acc := by
  induction fuel with
  | zero => intro n acc; rfl
  | succ f ih =>
    intro n acc
    match n with
    | 0 => rfl
    | m + 1 =>
      rw [natToCharsAux, natToCharsAux, ih ((m + 1) / 10)]
      rw [ih ((m + 1) / 10) [Char.ofNat (48 + (m + 1) % 10)]]
      simp

theorem natToCharsAux_fuel (fuel : Nat) : ∀ (fuel2 n : Nat) (acc : List Char),
    n ≤ fuel → n ≤ fuel2 → natToCharsAux fuel n acc = natToCharsAux fuel2 n acc := by
  induction fuel with
  | zero =>
    intro fuel2 n acc h1 _
    interval_cases n
    rw [natToCharsAux_zero, natToCharsAux_zero]
  | succ f ih =>
    intro fuel2 n acc _ h2
    match n with
    | 0 => rw [natToCharsAux_zero, natToCharsAux_zero]
    | m + 1 =>
      match fuel2 with
      | 0 => omega
      | f2 + 1 =>
        rw [natToCharsAux, natToCharsAux]
        have hdiv : (m + 1) / 10 < m + 1 := Nat.div_lt_self (by omega) (by omega)
        exact ih f2 ((m + 1) / 10) _ (by omega) (by omega)

theorem digitVal_ofNat (r : Nat) (h : r < 10) :
    digitVal (Char.ofNat (48 + r)) = some r := by
  interval_cases r <;> decide

theorem digitVal_bounds {c : Char} {d : Nat} (h : digitVal c = some d) :
    48 ≤ c.toNat ∧ c.toNat ≤ 57 := by
  unfold digitVal at h
  split at h
  · assumption
  · exact Option.noConfusion h

theorem natToCharsAux_all_digits (fuel : Nat) : ∀ (n : Nat) (acc : List Char),
    (∀ c ∈ acc, 48 ≤ c.toNat ∧ c.toNat ≤ 57) →
    ∀ c ∈ natToCharsAux fuel n acc, 48 ≤ c.toNat ∧ c.toNat ≤ 57 := by
  induction fuel with
  | zero => intro n acc hacc; exact hacc
  | succ f ih =>
    intro n acc hacc
    match n with
    | 0 => exact hacc
    | m + 1 =>
      rw [natToCharsAux]
      refine ih ((m + 1) / 10) _ ?_
      intro c hc
      rcases List.mem_cons.mp hc with hc | hc
      · subst hc
        exact digitVal_bounds (digitVal_ofNat ((m + 1) % 10) (Nat.mod_lt _ (by omega)))
      · exact hacc c hc

theorem parseDigits_append_some {xs : List Char} : ∀ {k v : Nat},
    parseDigits xs k = some v → ∀ ys, parseDigits (xs ++ ys) k = parseDigits ys v := by
  induction xs with
  | nil =>
    intro k v h ys
    rw [parseDigits] at h
    cases h
    rfl
  | cons c rest ih =>
    intro k v h ys
    rw [parseDigits] at h
    rw [List.cons_append, parseDigits]
    cases hd : digitVal c with
    | none => rw [hd] at h; exact Option.noConfusion h
    | some d =>
      rw [hd] at h
      exact ih h ys

theorem parse_natToCharsAux (n : Nat) : ∀ (fuel : Nat), 1 ≤ n → n ≤ fuel →
    ∃ e, 1 ≤ e ∧ ∀ k, parseDigits (natToCharsAux fuel n []) k = some (k * e + n) := by
  induction n using Nat.strong_induction_on with
  | _ n ihn =>
    intro fuel h1 hfuel
    obtain ⟨m, rfl⟩ : ∃ m, n = m + 1 := ⟨n - 1, by omega⟩
    obtain ⟨f, rfl⟩ : ∃ f, fuel = f + 1 := ⟨fuel - 1, by omega⟩
    have hmod : digitVal (Char.ofNat (48 + (m + 1) % 10)) = some ((m + 1) % 10) :=
      digitVal_ofNat ((m + 1) % 10) (Nat.mod_lt _ (by omega))
    rw [natToCharsAux, natToCharsAux_acc]
    by_cases hten : m + 1 < 10
    · have hdiv : (m + 1) / 10 = 0 := Nat.div_eq_of_lt hten
      rw [hdiv, natToCharsAux_zero, List.nil_append]
      refine ⟨10, by omega, fun k => ?_⟩
      simp only [parseDigits, hmod]
      have : (m + 1) % 10 = m + 1 := Nat.mod_eq_of_lt hten
      rw [this]
    · have hq1 : 1 ≤ (m + 1) / 10 := Nat.one_le_div_iff (by omega) |>.mpr (by omega)
      have hqlt : (m + 1) / 10 < m + 1 := Nat.div_lt_self (by omega) (by omega)
      obtain ⟨e, he1, he⟩ := ihn ((m + 1) / 10) hqlt f hq1 (by omega)
      refine ⟨e * 10, by omega, fun k => ?_⟩
      rw [parseDigits_append_some (he k)]
      simp only [parseDigits, hmod]
      congr 1
      have hsplit : (m + 1) / 10 * 10 + (m + 1) % 10 = m + 1 := by omega
      ring_nf
      omega

theorem parse_natToChars (n : Nat) (h : 1 ≤ n) :
    parseDigits (natToChars n) 0 = some n := by
  rw [natToChars, if_neg (by omega)]
  obtain ⟨e, _, he⟩ := parse_natToCharsAux n n h (le_refl n)
  rw [he 0]
  simp

theorem natToChars_all_digits (n : Nat) :
    ∀ c ∈ natToChars n, 48 ≤ c.toNat ∧ c.toNat ≤ 57 := by
  rw [natToChars]
  split
  · intro c hc; simp at hc; subst hc; decide
  · exact natToCharsAux_all_digits n n [] (by intro c hc; exact absurd hc (List.not_mem_nil c))

theorem natToChars_ne_nil (n : Nat) (h : 1 ≤ n) : natToChars n ≠ [] := by
  intro hnil
  have := parse_natToChars n h
  rw [hnil, parseDigits] at this
  cases this
  omega

theorem atoiChars_digits (l : List Char) (hne : l ≠ [])
    (hd : ∀ c ∈ l, 48 ≤ c.toNat ∧ c.toNat ≤ 57) :
    atoiChars l = (parseDigits l 0).map (fun v => (v : Int)) := by
  match l, hne with
  | c :: rest, _ =>
    have hc := hd c (List.mem_cons_self c rest)
    have h1 : c ≠ '-' := by intro h; subst h; revert hc; decide
    have h2 : c ≠ '+' := by intro h; subst h; revert hc; decide
    rw [atoiChars, if_neg h1, if_neg h2]

theorem atoi_itoa (n : Int) : atoi (itoa n) = some n := by
  match n with
  | Int.ofNat m =>
    match m with
    | 0 => decide
    | q + 1 =>
      show atoiChars (natToChars (q + 1)) = some (Int.ofNat (q + 1))
      rw [atoiChars_digits _ (natToChars_ne_nil _ (by omega)) (natToChars_all_digits _)]
      rw [parse_natToChars _ (by omega)]
      rfl
  | Int.negSucc m =>
    show atoiChars ('-' :: natToChars (m + 1)) = some (Int.negSucc m)
    rw [atoiChars, if_pos rfl, if_neg (natToChars_ne_nil _ (by omega))]
    rw [parse_natToChars _ (by omega)]
    show some (-((m + 1 : Nat) : Int)) = some (Int.negSucc m)
    simp [Int.negSucc_eq]

theorem itoa_inj {a b : Int} (h : itoa a = itoa b) : a = b := by
  have ha := atoi_itoa a
  rw [h, atoi_itoa b] at ha
  exact Option.some_inj.mp ha.symm

theorem atoi_ne_aliases_int (m : Int) :
    ¬(itoa m = lastBuild ∨ itoa m = lastCompletedBuild) :=
  atoi_ne_aliases (atoi_itoa m)

/-- Claim C3 (amended): a job name containing a path separator is rejected
before any network call, the state (cache and fetch counter) is untouched,
and the error returned is errStatusPageNotFound, the very value used for a
not-found build. -/
theorem folderJob_rejected_before_network (remote : Remote) (st : ApiState)
    (job id : String) (h : containsChar job '/' = true) :
    GetStatusForJob remote st job id = (Except.error GetErr.statusPageNotFound, st) := by
  simp [GetStatusForJob, h]

/-- Witness for folderJob_rejected_before_network at a concrete input. -/
theorem folderJob_rejected_before_network_witness :
    GetStatusForJob nfRemote freshState ("team/project") ("42")
      = (Except.error GetErr.statusPageNotFound, freshState) :=
  folderJob_rejected_before_network nfRemote freshState ("team/project") ("42") (by decide)

/-- Claim C3 counterexample: for the folder-style job name team/project the
resolver returns exactly the same error value as a genuine not-found build
of a plain job, so the rejection is not distinguishable from NotFound,
contradicting the claimed distinct NotSupported error. -/
theorem folderJob_error_equals_notFound_error :
    (GetStatusForJob nfRemote freshState ("team/project") ("1")).1
      = (GetStatusForJob nfRemote freshState ("someJob") ("1")).1
  ∧ (GetStatusForJob nfRemote freshState ("team/project") ("1")).2.fetches = 0 :=
  ⟨rfl, rfl⟩

/-- Claim C5 (amended): when the resolver reaches the network (no folder
rejection, no cache hit), a connectivity failure yields the transport
error, but an unparseable payload is swallowed: the call returns success
with the zero-valued record, and nothing is stored in the cache. -/
theorem decodeFailure_swallowed (remote : Remote) (st : ApiState) (job id : String)
    (hjob : containsChar job '/' = false)
    (hmiss : id = lastBuild ∨ id = lastCompletedBuild ∨
      lookupCache st.cache (cacheKey job id) = none) :
    (remote job id = FetchResult.transportError →
      GetStatusForJob remote st job id =
        (Except.error GetErr.transport, { st with fetches := st.fetches + 1 }))
  ∧ (remote job id = FetchResult.undecodable →
      GetStatusForJob remote st job id =
        (Except.ok zeroJobStatus, { st with fetches := st.fetches + 1 })) := by
  have hnone : (if id = lastBuild ∨ id = lastCompletedBuild then none
      else lookupCache st.cache (cacheKey job id)) = none := by
    rcases hmiss with h | h | h
    · simp [h]
    · simp [h]
    · by_cases ha : id = lastBuild ∨ id = lastCompletedBuild
      · simp [ha]
      · simp [ha, h]
  refine ⟨fun hr => ?_, fun hr => ?_⟩ <;> simp [GetStatusForJob, hjob, hnone, hr]

/-- Witness for decodeFailure_swallowed at a concrete input. -/
theorem decodeFailure_swallowed_witness :
    (badPayloadRemote ("jobA") ("7") = FetchResult.transportError →
      GetStatusForJob badPayloadRemote freshState ("jobA") ("7") =
        (Except.error GetErr.transport, { freshState with fetches := freshState.fetches + 1 }))
  ∧ (badPayloadRemote ("jobA") ("7") = FetchResult.undecodable →
      GetStatusForJob badPayloadRemote freshState ("jobA") ("7") =
        (Except.ok zeroJobStatus, { freshState with fetches := freshState.fetches + 1 })) :=
  decodeFailure_swallowed badPayloadRemote freshState ("jobA") ("7") (by decide)
    (Or.inr (Or.inr (by decide)))

/-- Claim C5 counterexample: on a server whose payload cannot be parsed the
resolver returns success carrying the zero-valued record instead of the
claimed DecodeError. -/
theorem undecodable_payload_returns_success :
    (GetStatusForJob badPayloadRemote freshState ("jobA") ("7")).1
      = Except.ok zeroJobStatus := rfl

/-- Claim C6 (amended): the log suffix is fetched at byte offset
totalSize minus the 2048-byte window budget with no clamping, so for a
total size below the budget the offset is negative, not zero. -/
theorem logFetch_offset_unclamped (srv : LogServer) (size : Int) (n : Nat)
    (h : srv.probe = some size) :
    GetLastLogLines srv n
      = (srv.content (size - 2048)).map (fun data => fetchLinesForLastLogLines data n)
  ∧ (0 ≤ size → size < 2048 → logFetchOffset size < 0) := by
  constructor
  · have hoff : logFetchOffset size = size - 2048 := by
      simp [logFetchOffset, sizeOfSuffix]
    simp only [GetLastLogLines, h, hoff]
    cases srv.content (size - 2048) <;> simp
  · intro h1 h2
    simp only [logFetchOffset, sizeOfSuffix]
    omega

/-- Witness for logFetch_offset_unclamped at a concrete input. -/
theorem logFetch_offset_unclamped_witness :
    GetLastLogLines smallLogServer 1
      = (smallLogServer.content (100 - 2048)).map
          (fun data => fetchLinesForLastLogLines data 1)
  ∧ (0 ≤ (100 : Int) → (100 : Int) < 2048 → logFetchOffset 100 < 0) :=
  logFetch_offset_unclamped smallLogServer 100 1 rfl

/-- Claim C6 counterexample: with a reported total size of 100 bytes the
fetch offset actually used is the negative number minus 1948; it is not
max 0 (100 minus 2048), and the extractor observably reads the suffix the
server serves at that negative offset. -/
theorem logFetch_offset_negative_at_100 :
    GetLastLogLines smallLogServer 1 = some [("negative")]
  ∧ logFetchOffset 100 ≠ max 0 (100 - 2048) := by
  constructor
  · rfl
  · decide

/-- Claim C7: on the buffer a, b, c, d, each newline-terminated, asking for
three lines returns b, c, d in oldest-first order: the backward scan
collects d, c, b and the final reversal restores chronological order. -/
theorem tailLines_reversed_to_oldest_first :
    fetchLinesForLastLogLines (("a\nb\nc\nd\n").toList) 3 = [("b"), ("c"), ("d")] := by
  decide

theorem collectCases_eq (cases : List TestCase) : ∀ (results : List TestCase),
    collectCases results cases = results ++ cases.filter
      (fun c => !(c.status == "PASSED" || c.status == "SKIPPED" || c.status == "FIXED")) := by
  induction cases with
  | nil => intro results; simp [collectCases]
  | cons c rest ih =>
    intro results
    by_cases hc : c.status ≠ "PASSED" ∧ c.status ≠ "SKIPPED" ∧ c.status ≠ "FIXED"
    · have hp : (!(c.status == "PASSED" || c.status == "SKIPPED" || c.status == "FIXED")) = true := by
        simp only [Bool.not_eq_true', Bool.or_eq_false_iff, beq_eq_false_iff_ne]
        exact ⟨⟨hc.1, hc.2.1⟩, hc.2.2⟩
      rw [collectCases, if_pos hc, ih, List.filter_cons, hp]
      simp
    · have hp : (!(c.status == "PASSED" || c.status == "SKIPPED" || c.status == "FIXED")) = false := by
        simp only [ne_eq, not_and_or, not_not] at hc
        rcases hc with h | h | h <;> simp [h]
      rw [collectCases, if_neg hc, ih, List.filter_cons, hp]
      simp

theorem collectSuites_eq (suites : List Suite) : ∀ (results : List TestCase),
    collectSuites results suites = results ++ ((suites.map Suite.cases).flatten).filter
      (fun c => !(c.status == "PASSED" || c.status == "SKIPPED" || c.status == "FIXED")) := by
  induction suites with
  | nil => intro results; simp [collectSuites]
  | cons s rest ih =>
    intro results
    rw [collectSuites, collectCases_eq, ih]
    simp [List.filter_append]

/-- Claim C9: for every received test report, the failed-test filter keeps
exactly the cases whose status is none of PASSED, SKIPPED, FIXED, in the
relative order of the report (suites in order, cases within each suite in
order), as the spec-side definition specFailedFilter states. -/
theorem failedTests_exact_filter (remoteTests : String → String → TestFetch)
    (job id : String) (received : TestCaseResult)
    (h : remoteTests job id = TestFetch.ok received) :
    GetFailedTestListFor remoteTests job id = Except.ok (specFailedFilter received) := by
  simp only [GetFailedTestListFor, h]
  rw [collectSuites_eq]
  rfl

/-- Witness for failedTests_exact_filter at a concrete report. -/
theorem failedTests_exact_filter_witness :
    GetFailedTestListFor sampleTestsRemote ("jobA") ("1")
      = Except.ok (specFailedFilter sampleReport) :=
  failedTests_exact_filter sampleTestsRemote ("jobA") ("1") sampleReport rfl

theorem lookupCache_head (key : String) (s : JobStatus) (rest : List (String × JobStatus)) :
    lookupCache ((key, s) :: rest) key = some s := by
  rw [lookupCache, if_pos rfl]

theorem cyclic_addActions_diverges (fuel : Nat) : ∀ (st : ApiState) (set : List String),
    (∀ s, lookupCache st.cache (cacheKey ("jobA") ("1")) = some s → s = loopStatus) →
    addActionIdsToSet cyclicRemote fuel st set loopStatus = none := by
  induction fuel with
  | zero => intro st set _; rw [addActionIdsToSet]
  | succ f ih =>
    intro st set hinv
    rw [addActionIdsToSet]
    rw [show loopStatus.actions = [⟨[⟨"", 1, "jobA", ""⟩]⟩] from rfl]
    rw [forEachAction, forEachCause]
    rw [if_neg (by simp), if_pos (by constructor <;> simp)]
    rw [addCauses]
    rw [show itoa 1 = ("1" : String) from rfl]
    rw [GetStatusForJob, if_neg (by decide)]
    rw [if_neg (show ¬(("1" : String) = lastBuild ∨ ("1" : String) = lastCompletedBuild) from by decide)]
    cases hlook : lookupCache st.cache (cacheKey ("jobA") ("1")) with
    | some s =>
      have hs := hinv s hlook
      subst hs
      simp only []
      rw [ih st set hinv]
    | none =>
      simp only []
      rw [show cyclicRemote ("jobA") ("1") = FetchResult.ok loopStatus from rfl]
      simp only [if_neg (show ¬(("1" : String) = lastBuild ∨ ("1" : String) = lastCompletedBuild) from by decide)]
      rw [ih _ set ?_]
      intro s hls
      rw [show cacheKey ("jobA") ("1") = cacheKey ("jobA") ("1") from rfl] at hls
      rw [lookupCache_head] at hls
      exact (Option.some_inj.mp hls).symm

/-- Claim C1: the recursive upstream-cause resolution keeps no visited set;
on the one-node cyclic trigger configuration cyclicRemote the walk started
at jobA build 1 exhausts every recursion-depth bound without completing:
for every fuel the embedded walker returns none.  The Go original recurses
addActionIdsToSet to addCauses to addActionIdsToSet unboundedly on this
input and never terminates. -/
theorem upstream_cycle_walk_never_completes (fuel : Nat) :
    CausesOfFailures cyclicRemote fuel freshState ("jobA") ("1") = none := by
  rw [CausesOfFailures]
  rw [show (20 : Nat) = 18 + 1 + 1 from rfl]
  rw [causesOfFailuresLoop]
  rw [if_neg (show ¬(("1" : String) = lastCompletedBuild) from by decide)]
  rw [show atoi ("1") = some 1 from by decide]
  simp only []
  rw [if_neg (show ¬(18 + 1 = 0) from by omega)]
  rw [show GetStatusForJob cyclicRemote freshState ("jobA") ("1")
      = (Except.ok loopStatus,
         { cache := [(cacheKey ("jobA") ("1"), loopStatus)], fetches := 1 }) from rfl]
  simp only []
  rw [if_neg (show ¬(loopStatus.result = "SUCCESS" ∨ loopStatus.result = "FIXED") from by decide)]
  rw [cyclic_addActions_diverges fuel _ [] ?_]
  intro s hls
  rw [lookupCache_head] at hls
  exact (Option.some_inj.mp hls).symm

/-- Witness instantiating upstream_cycle_walk_never_completes at one fuel. -/
theorem upstream_cycle_walk_never_completes_witness :
    CausesOfFailures cyclicRemote 9 freshState ("jobA") ("1") = none :=
  upstream_cycle_walk_never_completes 9

theorem cof_step (remote : Remote) (fuel v : Nat) (st : ApiState) (set : List String)
    (name id : String) (vc : Nat) (m : Int) (hid : atoi id = some m)
    (hnla : id ≠ lastCompletedBuild) (hv : v ≠ 0) :
    causesOfFailuresLoop remote fuel (v + 1) st set name id vc =
      match GetStatusForJob remote st name id with
      | (Except.error GetErr.statusPageNotFound, st1) =>
        causesOfFailuresLoop remote fuel v st1 set name (itoa (m - 1)) (vc + 1)
      | (Except.error _, st1) => some (set, st1, vc + 1)
      | (Except.ok s, st1) =>
        if s.result = "SUCCESS" ∨ s.result = "FIXED" then some (set, st1, vc + 1)
        else
          match addActionIdsToSet remote fuel st1 set s with
          | none => none
          | some (set1, st2) =>
            causesOfFailuresLoop remote fuel v st2
              (addChangeSetsToSet (addCulpritIdsToSet set1 s.culprits) s.changeSets)
              name (itoa (m - 1)) (vc + 1) := by
  rw [causesOfFailuresLoop, if_neg hnla, hid]
  simp only []
  rw [if_neg hv]

theorem cof_budget_stop (remote : Remote) (fuel : Nat) (st : ApiState) (set : List String)
    (name id : String) (vc : Nat) (m : Int) (hid : atoi id = some m)
    (hnla : id ≠ lastCompletedBuild) :
    ∀ v, v ≤ 1 → causesOfFailuresLoop remote fuel v st set name id vc = some (set, st, vc) := by
  intro v hv
  interval_cases v
  · rw [causesOfFailuresLoop, if_neg hnla, hid]
  · rw [causesOfFailuresLoop, if_neg hnla, hid]
    rfl

theorem cof_folder_countdown (remote : Remote) (fuel : Nat) (name : String)
    (hname : containsChar name '/' = true) :
    ∀ (v : Nat) (st : ApiState) (set : List String) (id : String) (m : Int) (vc : Nat),
      atoi id = some m →
      causesOfFailuresLoop remote fuel v st set name id vc = some (set, st, vc + (v - 1)) := by
  intro v
  induction v with
  | zero =>
    intro st set id m vc hid
    rw [cof_budget_stop remote fuel st set name id vc m hid
      (fun he => atoi_ne_aliases hid (Or.inr he)) 0 (by omega)]
    simp
  | succ v ih =>
    intro st set id m vc hid
    by_cases hv : v = 0
    · subst hv
      rw [cof_budget_stop remote fuel st set name id vc m hid
        (fun he => atoi_ne_aliases hid (Or.inr he)) 1 (by omega)]
      simp
    · rw [cof_step remote fuel v st set name id vc m hid
        (fun he => atoi_ne_aliases hid (Or.inr he)) hv]
      rw [folderJob_rejected_before_network remote st name id hname]
      simp only []
      rw [ih st set (itoa (m - 1)) (m - 1) (vc + 1) (atoi_itoa (m - 1))]
      have : vc + 1 + (v - 1) = vc + (v + 1 - 1) := by omega
      rw [this]

/-- Claim C10: for a job name containing a path separator and any numeric
start id, the walker issues no network call and touches neither cache nor
fetch counter (the final state is the initial one), accumulates nothing,
and still performs 19 resolver visits, one per budgeted iteration: the
folder rejection returns the same errStatusPageNotFound value as a purged
build, so every iteration is treated as a gap-skip that decrements the id
and the budget, and the loop ends only at the budget check. -/
theorem folder_walk_burns_entire_budget (remote : Remote) (fuel : Nat) (st : ApiState)
    (name id : String) (m : Int) (hname : containsChar name '/' = true)
    (hid : atoi id = some m) :
    CausesOfFailures remote fuel st name id = some ([], st, 19) := by
  rw [CausesOfFailures, cof_folder_countdown remote fuel name hname 20 st [] id m 0 hid]

/-- Witness for folder_walk_burns_entire_budget at a concrete input. -/
theorem folder_walk_burns_entire_budget_witness :
    CausesOfFailures nfRemote 3 freshState ("team/project") ("100") = some ([], freshState, 19) :=
  folder_walk_burns_entire_budget nfRemote 3 freshState ("team/project") ("100") 100
    (by decide) (by decide)

theorem addActionIdsToSet_no_actions (remote : Remote) (f : Nat) (st : ApiState)
    (set : List String) (s : JobStatus) (h : s.actions = []) :
    addActionIdsToSet remote (f + 1) st set s = some (set, st) := by
  rw [addActionIdsToSet, h, forEachAction]

theorem gap_history_eval :
    CausesOfFailures gapRemote 1 freshState ("jobG") ("10")
      = some ([("C")],
          { cache := [(("jobG-8"), successStatus), (("jobG-9"), failureWith ("C"))],
            fetches := 3 }, 3) := by
  rw [CausesOfFailures]
  rw [show (20 : Nat) = 19 + 1 from rfl]
  rw [cof_step gapRemote 1 19 freshState [] ("jobG") ("10") 0 10 (by decide) (by decide)
    (by decide)]
  rw [show GetStatusForJob gapRemote freshState ("jobG") ("10")
      = (Except.error GetErr.statusPageNotFound, { cache := [], fetches := 1 }) from rfl]
  simp only []
  rw [show itoa (10 - 1) = ("9" : String) from rfl]
  rw [show (19 : Nat) = 18 + 1 from rfl]
  rw [cof_step gapRemote 1 18 { cache := [], fetches := 1 } [] ("jobG") ("9") (0 + 1) 9
    (by decide) (by decide) (by decide)]
  rw [show GetStatusForJob gapRemote { cache := [], fetches := 1 } ("jobG") ("9")
      = (Except.ok (failureWith ("C")),
         { cache := [(("jobG-9"), failureWith ("C"))], fetches := 2 }) from rfl]
  simp only []
  rw [if_neg (show ¬((failureWith ("C")).result = "SUCCESS" ∨
      (failureWith ("C")).result = "FIXED") from by decide)]
  rw [show addActionIdsToSet gapRemote 1 { cache := [(("jobG-9"), failureWith ("C"))], fetches := 2 }
        [] (failureWith ("C"))
      = some ([], { cache := [(("jobG-9"), failureWith ("C"))], fetches := 2 })
      from addActionIdsToSet_no_actions gapRemote 0 _ [] _ rfl]
  simp only []
  rw [show addChangeSetsToSet (addCulpritIdsToSet [] (failureWith ("C")).culprits)
        (failureWith ("C")).changeSets = [("C")] from rfl]
  rw [show itoa (9 - 1) = ("8" : String) from rfl]
  rw [show (18 : Nat) = 17 + 1 from rfl]
  rw [cof_step gapRemote 1 17 { cache := [(("jobG-9"), failureWith ("C"))], fetches := 2 }
    [("C")] ("jobG") ("8") (0 + 1 + 1) 8 (by decide) (by decide) (by decide)]
  rw [show GetStatusForJob gapRemote { cache := [(("jobG-9"), failureWith ("C"))], fetches := 2 }
      ("jobG") ("8")
      = (Except.ok successStatus,
         { cache := [(("jobG-8"), successStatus), (("jobG-9"), failureWith ("C"))],
           fetches := 3 }) from rfl]
  simp only []
  rw [if_pos (show successStatus.result = "SUCCESS" ∨ successStatus.result = "FIXED"
      from Or.inl rfl)]

/-- Claim C8: a NotFound answer makes the walker decrement the id and loop
on with the accumulator untouched (first conjunct, for every resolver
outcome equal to errStatusPageNotFound), and on the concrete history where
build 10 is purged, build 9 is a FAILURE with culprit C and build 8 a
SUCCESS, the walk started at 10 returns exactly the set containing C. -/
theorem notFound_gap_skip_preserves_accumulator :
    (∀ (remote : Remote) (fuel v : Nat) (st st1 : ApiState) (set : List String)
       (name id : String) (vc : Nat) (m : Int),
       atoi id = some m → v ≠ 0 →
       GetStatusForJob remote st name id = (Except.error GetErr.statusPageNotFound, st1) →
       causesOfFailuresLoop remote fuel (v + 1) st set name id vc =
         causesOfFailuresLoop remote fuel v st1 set name (itoa (m - 1)) (vc + 1))
  ∧ (∃ stf : ApiState,
       CausesOfFailures gapRemote 1 freshState ("jobG") ("10") = some ([("C")], stf, 3)) := by
  constructor
  · intro remote fuel v st st1 set name id vc m hid hv hget
    rw [cof_step remote fuel v st set name id vc m hid
      (fun he => atoi_ne_aliases hid (Or.inr he)) hv]
    rw [hget]
  · exact ⟨_, gap_history_eval⟩

/-- Witness for notFound_gap_skip_preserves_accumulator: the first conjunct
applied at the concrete first iteration of the gap history, the second is
already closed. -/
theorem notFound_gap_skip_preserves_accumulator_witness :
    causesOfFailuresLoop gapRemote 1 (19 + 1) freshState [] ("jobG") ("10") 0 =
      causesOfFailuresLoop gapRemote 1 19 { cache := [], fetches := 1 } []
        ("jobG") (itoa (10 - 1)) (0 + 1) :=
  notFound_gap_skip_preserves_accumulator.1 gapRemote 1 19 freshState
    { cache := [], fetches := 1 } [] ("jobG") ("10") 0 10 (by decide) (by decide) rfl

/-- Claim C4: for a plain job and a concrete numeric id, the first
successful Get fetches once and stores the record; the second Get hits the
cache, returns the identical record and changes nothing, so the two calls
cost one network fetch in total.  For the two symbolic aliases every call
increments the fetch counter and never touches the cache, whatever the
server answers. -/
theorem numeric_ids_cached_aliases_never (remote : Remote) :
    (∀ (st : ApiState) (job id : String) (m : Int) (s : JobStatus),
      containsChar job '/' = false →
      atoi id = some m →
      lookupCache st.cache (cacheKey job id) = none →
      remote job id = FetchResult.ok s →
      (GetStatusForJob remote st job id).1 = Except.ok s
      ∧ GetStatusForJob remote ((GetStatusForJob remote st job id).2) job id
          = ((GetStatusForJob remote st job id).1, (GetStatusForJob remote st job id).2)
      ∧ (GetStatusForJob remote st job id).2.fetches = st.fetches + 1)
  ∧ (∀ (st : ApiState) (job id : String),
      containsChar job '/' = false →
      (id = lastBuild ∨ id = lastCompletedBuild) →
      (GetStatusForJob remote st job id).2.cache = st.cache
      ∧ (GetStatusForJob remote st job id).2.fetches = st.fetches + 1) := by
  constructor
  · intro st job id m s hjob hid hlook hrem
    have halias : ¬(id = lastBuild ∨ id = lastCompletedBuild) := atoi_ne_aliases hid
    have h1 : GetStatusForJob remote st job id
        = (Except.ok s,
           { cache := (cacheKey job id, s) :: st.cache, fetches := st.fetches + 1 }) := by
      rw [GetStatusForJob, if_neg (by simp [hjob]), if_neg halias, hlook]
      simp only []
      rw [hrem]
      simp only [if_neg halias]
    have h2 : GetStatusForJob remote
        { cache := (cacheKey job id, s) :: st.cache, fetches := st.fetches + 1 } job id
        = (Except.ok s,
           { cache := (cacheKey job id, s) :: st.cache, fetches := st.fetches + 1 }) := by
      rw [GetStatusForJob, if_neg (by simp [hjob]), if_neg halias]
      simp only []
      rw [lookupCache_head]
    rw [h1]
    exact ⟨rfl, by rw [h2], rfl⟩
  · intro st job id hjob halias
    cases hrem : remote job id <;>
      rw [GetStatusForJob, if_neg (by simp [hjob]), if_pos halias] <;>
      simp only [] <;>
      rw [hrem] <;>
      simp only [] <;>
      first
        | exact ⟨trivial, trivial⟩
        | exact ⟨rfl, rfl⟩
        | (rw [if_pos halias]; exact ⟨rfl, rfl⟩)

/-- Witness for numeric_ids_cached_aliases_never: both conjuncts applied at
concrete inputs, a numeric id on a constant server and the lastBuild
alias. -/
theorem numeric_ids_cached_aliases_never_witness :
    ((GetStatusForJob (constRemote successStatus) freshState ("jobA") ("5")).1
        = Except.ok successStatus
      ∧ GetStatusForJob (constRemote successStatus)
          ((GetStatusForJob (constRemote successStatus) freshState ("jobA") ("5")).2)
          ("jobA") ("5")
        = ((GetStatusForJob (constRemote successStatus) freshState ("jobA") ("5")).1,
           (GetStatusForJob (constRemote successStatus) freshState ("jobA") ("5")).2)
      ∧ (GetStatusForJob (constRemote successStatus) freshState ("jobA") ("5")).2.fetches
        = freshState.fetches + 1)
  ∧ ((GetStatusForJob (constRemote successStatus) freshState ("jobA") lastBuild).2.cache
        = freshState.cache
      ∧ (GetStatusForJob (constRemote successStatus) freshState ("jobA") lastBuild).2.fetches
        = freshState.fetches + 1) :=
  ⟨(numeric_ids_cached_aliases_never (constRemote successStatus)).1 freshState ("jobA") ("5")
      5 successStatus (by decide) (by decide) rfl rfl,
   (numeric_ids_cached_aliases_never (constRemote successStatus)).2 freshState ("jobA")
      lastBuild (by decide) (Or.inl rfl)⟩

theorem cacheKey_inj {name a b : String} (h : cacheKey name a = cacheKey name b) : a = b := by
  have hd : (cacheKey name a).data = (cacheKey name b).data := by rw [h]
  simp only [cacheKey, String.data_append, List.append_assoc] at hd
  exact String.ext (List.append_cancel_left (List.append_cancel_left hd))

theorem cof_failures_countdown (remote : Remote) (f : Nat) (name : String)
    (S : Int → JobStatus) (hname : containsChar name '/' = false) :
    ∀ (v : Nat) (st : ApiState) (set : List String) (m : Int) (vc : Nat),
      (∀ k : Nat, k < v - 1 → remote name (itoa (m - k)) = FetchResult.ok (S (m - k))) →
      (∀ k : Nat, k < v - 1 → (S (m - k)).result ≠ "SUCCESS" ∧
          (S (m - k)).result ≠ "FIXED" ∧ (S (m - k)).actions = []) →
      (∀ (q : Int) (s : JobStatus),
          lookupCache st.cache (cacheKey name (itoa q)) = some s → s = S q) →
      ∃ set1 st1,
        causesOfFailuresLoop remote (f + 1) v st set name (itoa m) vc
          = some (set1, st1, vc + (v - 1)) := by
  intro v
  induction v with
  | zero =>
    intro st set m vc _ _ _
    refine ⟨set, st, ?_⟩
    rw [cof_budget_stop remote (f + 1) st set name (itoa m) vc m (atoi_itoa m)
      (fun he => atoi_ne_aliases_int m (Or.inr he)) 0 (by omega)]
    simp
  | succ v ih =>
    intro st set m vc hrem hS hinv
    by_cases hv : v = 0
    · subst hv
      refine ⟨set, st, ?_⟩
      rw [cof_budget_stop remote (f + 1) st set name (itoa m) vc m (atoi_itoa m)
        (fun he => atoi_ne_aliases_int m (Or.inr he)) 1 (by omega)]
      simp
    · rw [cof_step remote (f + 1) v st set name (itoa m) vc m (atoi_itoa m)
        (fun he => atoi_ne_aliases_int m (Or.inr he)) hv]
      have h0 : (0 : Nat) < v + 1 - 1 := by omega
      have hrem0 : remote name (itoa m) = FetchResult.ok (S m) := by
        have h := hrem 0 h0
        simpa using h
      have hS0 : (S m).result ≠ "SUCCESS" ∧ (S m).result ≠ "FIXED" ∧ (S m).actions = [] := by
        have h := hS 0 h0
        simpa using h
      have hremShift : ∀ k : Nat, k < v - 1 →
          remote name (itoa (m - 1 - k)) = FetchResult.ok (S (m - 1 - k)) := by
        intro k hk
        have h := hrem (k + 1) (by omega)
        have harith : m - ((k + 1 : Nat) : Int) = m - 1 - (k : Nat) := by push_cast; ring
        rwa [harith] at h
      have hSShift : ∀ k : Nat, k < v - 1 → (S (m - 1 - k)).result ≠ "SUCCESS" ∧
          (S (m - 1 - k)).result ≠ "FIXED" ∧ (S (m - 1 - k)).actions = [] := by
        intro k hk
        have h := hS (k + 1) (by omega)
        have harith : m - ((k + 1 : Nat) : Int) = m - 1 - (k : Nat) := by push_cast; ring
        rwa [harith] at h
      have harith2 : ∀ w : Nat, vc + 1 + (v - 1) = vc + (v + 1 - 1) := by intro _; omega
      cases hlook : lookupCache st.cache (cacheKey name (itoa m)) with
      | some s =>
        have hs := hinv m s hlook
        subst hs
        have hget : GetStatusForJob remote st name (itoa m) = (Except.ok (S m), st) := by
          rw [GetStatusForJob, if_neg (by simp [hname]), if_neg (atoi_ne_aliases_int m), hlook]
        rw [hget]
        simp only []
        rw [if_neg (show ¬((S m).result = "SUCCESS" ∨ (S m).result = "FIXED") from by
          rintro (h | h)
          · exact hS0.1 h
          · exact hS0.2.1 h)]
        rw [show addActionIdsToSet remote (f + 1) st set (S m) = some (set, st) from
          addActionIdsToSet_no_actions remote f st set (S m) hS0.2.2]
        simp only []
        obtain ⟨set1, st1, hrec⟩ := ih st
          (addChangeSetsToSet (addCulpritIdsToSet set (S m).culprits) (S m).changeSets)
          (m - 1) (vc + 1) hremShift hSShift hinv
        rw [harith2 0] at hrec
        exact ⟨set1, st1, hrec⟩
      | none =>
        have hget : GetStatusForJob remote st name (itoa m)
            = (Except.ok (S m),
               { cache := (cacheKey name (itoa m), S m) :: st.cache,
                 fetches := st.fetches + 1 }) := by
          rw [GetStatusForJob, if_neg (by simp [hname]), if_neg (atoi_ne_aliases_int m), hlook]
          simp only []
          rw [hrem0]
          simp only [if_neg (atoi_ne_aliases_int m)]
        rw [hget]
        simp only []
        rw [if_neg (show ¬((S m).result = "SUCCESS" ∨ (S m).result = "FIXED") from by
          rintro (h | h)
          · exact hS0.1 h
          · exact hS0.2.1 h)]
        rw [show addActionIdsToSet remote (f + 1)
              { cache := (cacheKey name (itoa m), S m) :: st.cache,
                fetches := st.fetches + 1 } set (S m)
            = some (set,
              { cache := (cacheKey name (itoa m), S m) :: st.cache,
                fetches := st.fetches + 1 }) from
          addActionIdsToSet_no_actions remote f _ set (S m) hS0.2.2]
        simp only []
        have hinv1 : ∀ (q : Int) (s : JobStatus),
            lookupCache ((cacheKey name (itoa m), S m) :: st.cache)
              (cacheKey name (itoa q)) = some s → s = S q := by
          intro q s hls
          rw [lookupCache] at hls
          by_cases he : cacheKey name (itoa m) = cacheKey name (itoa q)
          · rw [if_pos he] at hls
            have hmq : m = q := itoa_inj (cacheKey_inj he)
            subst hmq
            exact (Option.some_inj.mp hls).symm
          · rw [if_neg he] at hls
            exact hinv q s hls
        obtain ⟨set1, st1, hrec⟩ := ih
          { cache := (cacheKey name (itoa m), S m) :: st.cache, fetches := st.fetches + 1 }
          (addChangeSetsToSet (addCulpritIdsToSet set (S m).culprits) (S m).changeSets)
          (m - 1) (vc + 1) hremShift hSShift hinv1
        rw [harith2 0] at hrec
        exact ⟨set1, st1, hrec⟩

/-- Claim C2 (amended): on a history whose visited builds are all
failures (result neither SUCCESS nor FIXED, no trigger actions) the walker
performs exactly 19 resolver visits, one fewer than the budget constant 20,
because visitsToServerAllowed is decremented before the exhaustion check;
the count is independent of the cache contents, which only need to agree
with the history. -/
theorem failure_streak_visits_19 (remote : Remote) (f : Nat) (name : String)
    (S : Int → JobStatus) (st : ApiState) (m : Int)
    (hname : containsChar name '/' = false)
    (hrem : ∀ k : Nat, k < 19 → remote name (itoa (m - k)) = FetchResult.ok (S (m - k)))
    (hS : ∀ k : Nat, k < 19 → (S (m - k)).result ≠ "SUCCESS" ∧
        (S (m - k)).result ≠ "FIXED" ∧ (S (m - k)).actions = [])
    (hcache : ∀ (q : Int) (s : JobStatus),
        lookupCache st.cache (cacheKey name (itoa q)) = some s → s = S q) :
    ∃ set1 st1, CausesOfFailures remote (f + 1) st name (itoa m) = some (set1, st1, 19) := by
  obtain ⟨set1, st1, h⟩ := cof_failures_countdown remote f name S hname 20 st [] m 0
    hrem hS hcache
  exact ⟨set1, st1, h⟩

/-- Witness for failure_streak_visits_19 at the concrete 25-failure
history of manyFailuresRemote, started cold at build 100. -/
theorem failure_streak_visits_19_witness :
    ∃ set1 st1, CausesOfFailures manyFailuresRemote (0 + 1) freshState ("jobF") (itoa 100)
      = some (set1, st1, 19) :=
  failure_streak_visits_19 manyFailuresRemote 0 ("jobF")
    (fun q => failureWith (("dev") ++ itoa q)) freshState 100 (by decide) (by decide)
    (by decide) (by intro q s hls; simp [freshState, lookupCache] at hls)

/-- Claim C2 counterexample: on the concrete history of 25 consecutive
FAILURE builds with distinct culprits and a cold cache, the walker started
at build 100 performs 19 resolver visits, not the 20 the claim states. -/
theorem failure_streak_not_20_visits :
    (CausesOfFailures manyFailuresRemote 1 freshState ("jobF") ("100")).map
        (fun r => r.2.2) = some 19
  ∧ ¬((CausesOfFailures manyFailuresRemote 1 freshState ("jobF") ("100")).map
        (fun r => r.2.2) = some 20) := by
  obtain ⟨set1, st1, h⟩ := cof_failures_countdown manyFailuresRemote 0 ("jobF")
    (fun q => failureWith (("dev") ++ itoa q)) (by decide) 20 freshState [] 100 0
    (by decide) (by decide)
    (by intro q s hls; simp [freshState, lookupCache] at hls)
  have h2 : CausesOfFailures manyFailuresRemote 1 freshState ("jobF") ("100")
      = some (set1, st1, 19) := by
    rw [CausesOfFailures]
    exact h
  rw [h2]
  exact ⟨rfl, by simp⟩

end JenkinsPing
